import Mathlib

/-!
Verification development for the Agentic Motion Studio scene-to-video
pipeline (`src/webapp/src/app/page.tsx`).

Numbers are modelled as exact rationals (`ℚ`): every constant that appears
in the claims (durations on the editor grid, the 24 fps frame rate, stage
fractions) is exactly representable in binary floating point at the scales
involved, so the rational model agrees with the JavaScript `number`
arithmetic on the inputs the theorems evaluate.

The drawing surface is modelled as a trace of immediate-mode drawing
commands (`DrawOp`): the renderer is embedded as a function producing the
exact sequence of canvas calls the source issues.  Transcendental
primitives (`Math.sin`, `Math.cos`, `Math.PI`) and text measurement
(`context.measureText`, which depends on the current font) are ambient
capabilities of the environment, passed in as a `MathPrims` record.
`World` packages the observable ambient state a render call could in
principle consult (call counter, wall clock); the embedding threads it
through `renderSceneFrame` so that independence from call count and
timing is a provable statement rather than an artefact of the model.
-/

/-- Canvas width constant from the source (`CANVAS_WIDTH = 1280`). -/
def CANVAS_WIDTH : ℚ := 1280

/-- Canvas height constant from the source (`CANVAS_HEIGHT = 720`). -/
def CANVAS_HEIGHT : ℚ := 720

/-- Frame rate constant from the source (`FPS = 24`). -/
def FPS : ℚ := 24

/-- Maximum scene count from the source (`MAX_SCENES = 6`). -/
def MAX_SCENES : ℕ := 6

/-- Minimum scene duration in seconds (`MIN_DURATION = 2`). -/
def MIN_DURATION : ℚ := 2

/-- Maximum scene duration in seconds (`MAX_DURATION = 8`). -/
def MAX_DURATION : ℚ := 8

/-- Modelled from the spec: the animation variant enum of `lib/animation`
(not under `src/`); the spec fixes the variants to zoom, slide, drift. -/
inductive SceneAnimation where
  | zoom
  | slide
  | drift
deriving DecidableEq

/-- Modelled from the spec: a gradient record of the Gradient Registry
(`lib/palette`, not under `src/`): id, label, angle in degrees, and an
ordered list of stops (position, color). -/
structure Gradient where
  id : String
  label : String
  angle : ℚ
  stops : List (ℚ × String)
deriving DecidableEq

/-- The `Scene` record type from the source. -/
structure Scene where
  id : String
  title : String
  description : String
  duration : ℚ
  gradientId : String
  textColor : String
  accent : String
  animation : SceneAnimation
deriving DecidableEq

/-- Title and description font specs (`fontStyles` in the source). -/
def fontStyleTitle : String := "700 64px \x27Sora\x27, \x27Inter\x27, sans-serif"

/-- Description font spec from `fontStyles` in the source. -/
def fontStyleDescription : String := "400 30px \x27Inter\x27, system-ui, sans-serif"

/-- Easing curve `easeIn(value) = value * value` from the source. -/
def easeIn (value : ℚ) : ℚ := value * value

/-- Easing curve `easeOut(value) = 1 - (1 - value)^3` from the source
(`Math.pow` at integer exponent 3 is exact multiplication). -/
def easeOut (value : ℚ) : ℚ := 1 - (1 - value) ^ 3

/-- Easing curve `easeInOut` from the source:
`4 v³` below one half, else `1 - (-2v + 2)³ / 2`. -/
def easeInOut (value : ℚ) : ℚ :=
  if value < 1 / 2 then 4 * value * value * value
  else 1 - (-2 * value + 2) ^ 3 / 2

/-- The `clamp` helper from the source: `Math.min(Math.max(value, min), max)`. -/
def clamp (value lo hi : ℚ) : ℚ := min (max value lo) hi

/-- One immediate-mode drawing command issued against the 2D surface.
Constructors carry exactly the data the corresponding canvas call takes. -/
inductive DrawOp where
  | save
  | restore
  | gradientFill (g : Gradient)
  | setFillStyleRadial (x0 y0 r0 x1 y1 r1 : ℚ) (stops : List (ℚ × String))
  | setFillStyleLinear (x0 y0 x1 y1 : ℚ) (stops : List (ℚ × String))
  | setFillStyleColor (c : String)
  | fillRect (x y w h : ℚ)
  | translate (x y : ℚ)
  | scaleBy (x y : ℚ)
  | rotate (r : ℚ)
  | setGlobalAlpha (a : ℚ)
  | beginPath
  | closePath
  | fillPath
  | moveTo (x y : ℚ)
  | lineTo (x y : ℚ)
  | quadraticCurveTo (cx cy x y : ℚ)
  | setFont (f : String)
  | setTextBaseline (b : String)
  | fillText (s : String) (x y : ℚ)
deriving DecidableEq

/-- Ambient mathematical and text-measurement capabilities the renderer
consumes: `Math.sin`, `Math.cos`, `Math.PI`, and `context.measureText`
(whose result depends on the current font, hence the extra argument). -/
structure MathPrims where
  sin : ℚ → ℚ
  cos : ℚ → ℚ
  pi : ℚ
  measureText : String → String → ℚ

/-- Observable ambient state a render call could consult: a call counter
and a wall clock.  The source never reads either; the embedding passes
this record to the renderer so determinism is a real statement. -/
structure World where
  callCount : ℕ
  now : ℚ
deriving DecidableEq

/-- The `wrapText` helper from the source: greedy word wrap using measured
text width (append a word while the test line fits, else break). -/
def wrapText (measure : String → ℚ) (text : String) (maxWidth : ℚ) :
    List String :=
  let words := text.splitOn " "
  let step := fun (acc : List String × String) (word : String) =>
    let currentLine := acc.2
    let testLine := if currentLine = "" then word
      else currentLine ++ " " ++ word
    if maxWidth < measure testLine ∧ currentLine ≠ "" then
      (acc.1 ++ [currentLine], word)
    else (acc.1, testLine)
  let folded := words.foldl step ([], "")
  if folded.2 = "" then folded.1 else folded.1 ++ [folded.2]

/-- Modelled from the spec: `drawGradient` of `lib/palette` (not under
`src/`) paints the full-frame gradient per its angle and stops; it is
abstracted as the single deterministic command `DrawOp.gradientFill`. -/
def drawGradientOps (g : Gradient) : List DrawOp := [DrawOp.gradientFill g]

/-- The `drawMist` helper from the source: a fixed radial white overlay
painted over the whole frame. -/
def drawMistOps : List DrawOp :=
  [DrawOp.setFillStyleRadial (CANVAS_WIDTH * (3 / 10)) (CANVAS_HEIGHT * (2 / 10)) 0
      (CANVAS_WIDTH * (4 / 10)) (CANVAS_HEIGHT * (3 / 10)) (CANVAS_WIDTH * (8 / 10))
      [(0, "rgba(255,255,255,0.18)"), (1, "rgba(255,255,255,0)")],
    DrawOp.fillRect 0 0 CANVAS_WIDTH CANVAS_HEIGHT]

/-- The `roundedRect` path helper from the source. -/
def roundedRectOps (x y w h radius : ℚ) : List DrawOp :=
  [DrawOp.beginPath,
    DrawOp.moveTo (x + radius) y,
    DrawOp.lineTo (x + w - radius) y,
    DrawOp.quadraticCurveTo (x + w) y (x + w) (y + radius),
    DrawOp.lineTo (x + w) (y + h - radius),
    DrawOp.quadraticCurveTo (x + w) (y + h) (x + w - radius) (y + h),
    DrawOp.lineTo (x + radius) (y + h),
    DrawOp.quadraticCurveTo x (y + h) x (y + h - radius),
    DrawOp.lineTo x (y + radius),
    DrawOp.quadraticCurveTo x y (x + radius) y,
    DrawOp.closePath]

/-- The `drawAccent` helper from the source: the animated accent shape,
with opacity, scale and rotation computed from `progress` and the
animation variant. -/
def drawAccentOps (prims : MathPrims) (accent : String) (progress : ℚ)
    (animation : SceneAnimation) : List DrawOp :=
  let eased := easeInOut progress
  let baseOpacity := 35 / 100 + 15 / 100 * prims.sin (progress * prims.pi)
  let scaleV : ℚ :=
    match animation with
    | SceneAnimation.zoom => 1 + eased * (8 / 100)
    | SceneAnimation.slide => 105 / 100 + prims.sin (progress * prims.pi) * (5 / 100)
    | SceneAnimation.drift => 1 + prims.cos (progress * prims.pi * 2) * (4 / 100)
  let rotation : ℚ :=
    match animation with
    | SceneAnimation.slide => (easeOut progress - 1 / 2) * (4 / 10)
    | SceneAnimation.drift => prims.sin (progress * prims.pi * 2) * (2 / 10)
    | SceneAnimation.zoom => easeInOut progress * (15 / 100)
  let rectWidth := CANVAS_WIDTH * (65 / 100)
  let rectHeight := CANVAS_HEIGHT * (65 / 100)
  [DrawOp.save,
    DrawOp.translate (CANVAS_WIDTH / 2) (CANVAS_HEIGHT / 2),
    DrawOp.scaleBy scaleV scaleV,
    DrawOp.rotate rotation,
    DrawOp.setFillStyleLinear (-rectWidth / 2) (-rectHeight / 2)
      (rectWidth / 2) (rectHeight / 2)
      [(0, accent ++ "30"), (1, accent ++ "00")],
    DrawOp.setGlobalAlpha baseOpacity]
  ++ roundedRectOps (-rectWidth / 2) (-rectHeight / 2) rectWidth rectHeight 48
  ++ [DrawOp.fillPath, DrawOp.restore]

/-- Helper for the `forEach` text loops of `drawTextBlock`: emit one
`fillText` per line, advancing the y cursor by `lineHeight`; returns the
commands and the final cursor. -/
def textLinesOps (lines : List String) (startY lineHeight : ℚ) :
    List DrawOp × ℚ :=
  lines.foldl
    (fun acc line => (acc.1 ++ [DrawOp.fillText line 0 acc.2], acc.2 + lineHeight))
    ([], startY)

/-- The `drawTextBlock` helper from the source: animated title and
description text, word-wrapped to the padded width. -/
def drawTextBlockOps (prims : MathPrims) (scene : Scene) (progress : ℚ) :
    List DrawOp :=
  let padding : ℚ := 120
  let textWidth := CANVAS_WIDTH - padding * 2
  let offset : ℚ :=
    match scene.animation with
    | SceneAnimation.slide => (1 - easeOut progress) * 80
    | SceneAnimation.drift => prims.sin (progress * prims.pi * 2) * 20
    | SceneAnimation.zoom => (1 - easeOut progress) * 40
  let titleLines := wrapText (prims.measureText fontStyleTitle) scene.title textWidth
  let titlePart := textLinesOps titleLines 0 70
  let bodyLines :=
    wrapText (prims.measureText fontStyleDescription) scene.description textWidth
  let bodyPart := textLinesOps bodyLines (titlePart.2 + 20) 44
  [DrawOp.save,
    DrawOp.translate padding padding,
    DrawOp.translate 0 offset,
    DrawOp.setGlobalAlpha (easeIn progress),
    DrawOp.setFillStyleColor scene.textColor,
    DrawOp.setFont fontStyleTitle,
    DrawOp.setTextBaseline "top"]
  ++ titlePart.1
  ++ [DrawOp.setGlobalAlpha (easeIn progress * (9 / 10)),
    DrawOp.setFont fontStyleDescription]
  ++ bodyPart.1
  ++ [DrawOp.restore]

/-- The `renderSceneFrame` function from the source: resolve the scene's
gradient against the registry — failing with the gradient-lookup error
before any drawing command when it is absent — then compose gradient,
mist, accent and text block between a save/restore pair.  The result is
the full command trace issued against a fresh surface; the `World`
argument is the ambient state the call could observe. -/
def renderSceneFrame (prims : MathPrims) (registry : List Gradient)
    (scene : Scene) (progress : ℚ) (_w : World) :
    Except String (List DrawOp) :=
  match registry.find? (fun entry => entry.id == scene.gradientId) with
  | none => Except.error ("Missing gradient \"" ++ scene.gradientId ++ "\".")
  | some gradient =>
      Except.ok
        ([DrawOp.save]
          ++ drawGradientOps gradient
          ++ drawMistOps
          ++ drawAccentOps prims scene.accent progress scene.animation
          ++ drawTextBlockOps prims scene progress
          ++ [DrawOp.restore])

/-- The `totalDurationForScenes` function from the source:
`scenes.reduce((total, scene) => total + scene.duration, 0)`. -/
def totalDurationForScenes (scenes : List Scene) : ℚ :=
  scenes.foldl (fun total scene => total + scene.duration) 0

/-- The scene-walking loop inside `renderPreviewFrame`: accumulate
elapsed time; the first scene whose half-open interval contains `time`
is rendered at local progress `(time - start) / duration` and the walk
stops.  Returns the `(scene, progress)` pair handed to
`renderSceneFrame`, or `none` when the loop falls through. -/
def resolveAux : List Scene → ℚ → ℚ → Option (Scene × ℚ)
  | [], _, _ => none
  | scene :: rest, time, elapsed =>
      if elapsed ≤ time ∧ time < elapsed + scene.duration then
        some (scene, (time - elapsed) / scene.duration)
      else resolveAux rest time (elapsed + scene.duration)

/-- The `renderPreviewFrame` function from the source, abstracted to the
timeline resolution it performs: it returns the `(scene, progress)` pair
it hands to `renderSceneFrame` (`none` when `totalDuration === 0`, where
the source returns without rendering).  When the loop falls through, the
source renders `scenes[scenes.length - 1]` at progress 1. -/
def renderPreviewFrame (scenes : List Scene) (time : ℚ) :
    Option (Scene × ℚ) :=
  if totalDurationForScenes scenes = 0 then none
  else
    match resolveAux scenes time 0 with
    | some result => some result
    | none => scenes.getLast?.map (fun scene => (scene, 1))

/-- JavaScript `Math.round`: half-up rounding toward positive infinity,
`round(q) = ⌊q + 1/2⌋`. -/
def jsRound (q : ℚ) : ℤ := ⌊q + 1 / 2⌋

/-- Per-scene frame count from `synthesizeVideo`:
`Math.max(1, Math.round(scene.duration * FPS))`. -/
def framesForScene (duration : ℚ) : ℕ := (max 1 (jsRound (duration * FPS))).toNat

/-- Total frame count from `synthesizeVideo`:
`Math.max(1, Math.round(totalDurationForScenes(scenes) * FPS))`. -/
def totalFramesFor (scenes : List Scene) : ℕ :=
  (max 1 (jsRound (totalDurationForScenes scenes * FPS))).toNat

/-- Sum over the scene list of the per-scene frame counts: the number of
frames the orchestrator's nested loop executes. -/
def sumFrames (scenes : List Scene) : ℕ :=
  (scenes.map (fun scene => framesForScene scene.duration)).sum

/-- Zero padding from the source: `String(n).padStart(5, "0")`. -/
def pad5 (n : ℕ) : String :=
  let s := toString n
  if s.length < 5 then String.mk (List.replicate (5 - s.length) '0') ++ s else s

/-- Frame filename from the source:
`frame_` + zero-padded 5-digit index + `.png`. -/
def frameName (i : ℕ) : String := "frame_" ++ pad5 i ++ ".png"

/-- The `Stage` union from the source: the vocabulary of the progress
callback. -/
inductive Stage where
  | loading
  | frames
  | muxing
deriving DecidableEq

/-- Modelled from the spec: behaviour of the external encoder capability
(`lib/ffmpeg`, not under `src/`), a test double deciding whether loading
succeeds, whether the i-th `writeFile` call succeeds, whether `exec` and
`readFile` succeed, and which `deleteFile` calls succeed. -/
structure EncoderBehavior where
  loadOk : Bool
  writeOk : ℕ → Bool
  execOk : Bool
  readOk : Bool
  deleteOk : String → Bool

/-- Observable state of one export attempt: the encoder's working
storage (file names present), the tracked `writtenFiles` list, the
sequence of `(stage, progress)` reports, the global `frameIndex`, and
whether the encoder capability was requested. -/
structure SynthState where
  storage : List String
  written : List String
  stages : List (Stage × ℚ)
  frameIndex : ℕ
  loaded : Bool
deriving DecidableEq

/-- Writing a named file into the encoder's working storage. -/
def storagePut (name : String) (storage : List String) : List String :=
  if storage.contains name then storage else storage ++ [name]

/-- One `deleteFile` attempt: the name is removed when the delete
succeeds; a failing delete leaves storage unchanged (the caller swallows
the exception). -/
def deleteName (beh : EncoderBehavior) (name : String)
    (storage : List String) : List String :=
  if beh.deleteOk name then storage.filter (fun m => m ≠ name) else storage

/-- The `cleanupFfmpeg` function from the source: best-effort deletion of
every tracked frame file, then of `output.mp4`, each failure swallowed. -/
def cleanupFfmpeg (beh : EncoderBehavior) (st : SynthState) : SynthState :=
  { st with
    storage :=
      deleteName beh "output.mp4"
        (st.written.foldl (fun stor f => deleteName beh f stor) st.storage) }

/-- The inner frame loop of `synthesizeVideo` for one scene:
`for (let frame = 0; frame < framesForScene; frame += 1)`.  Each
iteration computes the local progress, renders the frame (a gradient
lookup failure aborts with the render error), writes the frame file
(a write failure aborts with the encoder's error), records the filename,
increments the global index and reports `frames` progress.  `remaining`
counts the iterations left; `frame` is the loop variable. -/
def runFrames (prims : MathPrims) (registry : List Gradient)
    (beh : EncoderBehavior) (w : World) (scene : Scene)
    (fFS totalFrames : ℕ) :
    ℕ → ℕ → SynthState → SynthState × Option String
  | 0, _, st => (st, none)
  | remaining + 1, frame, st =>
      let progress : ℚ :=
        if fFS ≤ 1 then 1 else (frame : ℚ) / ((fFS : ℚ) - 1)
      match renderSceneFrame prims registry scene progress w with
      | Except.error e => (st, some e)
      | Except.ok _ =>
          let filename := frameName st.frameIndex
          if beh.writeOk st.frameIndex then
            runFrames prims registry beh w scene fFS totalFrames remaining
              (frame + 1)
              { storage := storagePut filename st.storage
                written := st.written ++ [filename]
                stages := st.stages ++
                  [(Stage.frames, ((st.frameIndex + 1 : ℕ) : ℚ) / (totalFrames : ℚ))]
                frameIndex := st.frameIndex + 1
                loaded := st.loaded }
          else (st, some "ffmpeg writeFile failed")

/-- The outer `for (const scene of scenes)` loop of `synthesizeVideo`. -/
def runScenes (prims : MathPrims) (registry : List Gradient)
    (beh : EncoderBehavior) (w : World) (totalFrames : ℕ) :
    List Scene → SynthState → SynthState × Option String
  | [], st => (st, none)
  | scene :: rest, st =>
      let fFS := framesForScene scene.duration
      match runFrames prims registry beh w scene fFS totalFrames fFS 0 st with
      | (st2, some e) => (st2, some e)
      | (st2, none) => runScenes prims registry beh w totalFrames rest st2

/-- Fresh state at the start of an export attempt. -/
def initialSynthState : SynthState :=
  { storage := [], written := [], stages := [], frameIndex := 0, loaded := false }

/-- The `synthesizeVideo` function from the source, as a state
transformer over the encoder's working storage.  Mirrors the control
flow exactly: empty-list validation before any work; `loadEncoder`
(reporting `loading` 0.1 then 1); the nested frame loop — which sits
OUTSIDE the `try`/`finally`, so an abort there propagates without
cleanup; then `muxing` 0.1, `exec` (a success materialises
`output.mp4`), `muxing` 0.9, `readFile` with its type check, `muxing` 1;
the `finally` block runs `cleanupFfmpeg` on every exit from the
`try`.  The returned `Except` is the attempt's outcome (ok = a video
blob was returned). -/
def synthesizeVideo (prims : MathPrims) (registry : List Gradient)
    (beh : EncoderBehavior) (w : World) (scenes : List Scene) :
    SynthState × Except String Unit :=
  if scenes.isEmpty then
    (initialSynthState, Except.error "Add at least one scene before rendering.")
  else
    let st0 := { initialSynthState with stages := [(Stage.loading, 1 / 10)] }
    if beh.loadOk then
      let st1 := { st0 with
        loaded := true
        stages := st0.stages ++ [(Stage.loading, 1)] }
      let totalFrames := totalFramesFor scenes
      match runScenes prims registry beh w totalFrames scenes st1 with
      | (st2, some e) => (st2, Except.error e)
      | (st2, none) =>
          let st3 := { st2 with stages := st2.stages ++ [(Stage.muxing, 1 / 10)] }
          if beh.execOk then
            let st4 := { st3 with
              storage := storagePut "output.mp4" st3.storage
              stages := st3.stages ++ [(Stage.muxing, 9 / 10)] }
            if beh.readOk then
              let st5 := { st4 with stages := st4.stages ++ [(Stage.muxing, 1)] }
              (cleanupFfmpeg beh st5, Except.ok ())
            else
              (cleanupFfmpeg beh st4,
                Except.error "Unexpected encoder output format.")
          else (cleanupFfmpeg beh st3, Except.error "ffmpeg exec failed")
    else (st0, Except.error "Failed to load encoder.")

/-- The frames-stage progress values reported during an attempt, in
order: the second components of the `Stage.frames` entries of the
report list. -/
def framesStageReports (stages : List (Stage × ℚ)) : List ℚ :=
  (stages.filter (fun p => p.1 = Stage.frames)).map (fun p => p.2)

/-- The `buildInitialScenes` function from the source.  The source draws
fresh `nanoid()` identifiers; the embedding fixes three distinct
placeholder ids, which is the only observable property the ids need. -/
def buildInitialScenes : List Scene :=
  [{ id := "scene-a"
     title := "Showcase your ideas in motion"
     description := "Craft cinematic storyboards that turn into silky, production-ready clips with zero hassle."
     duration := 4
     gradientId := "aurora"
     textColor := "#f8fafc"
     accent := "#facc15"
     animation := SceneAnimation.zoom },
   { id := "scene-b"
     title := "Scene-aware pacing"
     description := "Fine-tune every beat. Dial in timing, gradients, and motion for a smooth narrative arc."
     duration := 7 / 2
     gradientId := "midnight"
     textColor := "#e2e8f0"
     accent := "#38bdf8"
     animation := SceneAnimation.slide },
   { id := "scene-c"
     title := "Render to share in one click"
     description := "Generate studio-grade MP4s in-browser using a fast WASM encoder optimized for Vercel deploys."
     duration := 3
     gradientId := "sunset"
     textColor := "#fff7ed"
     accent := "#fb7185"
     animation := SceneAnimation.drift }]

/-- Fallback gradient value for the (unreachable in the deployed app)
lookup on an empty registry inside `addScene`. -/
def emptyGradient : Gradient := { id := "", label := "", angle := 0, stops := [] }

/-- The gradient rotation inside `addScene`:
`GRADIENTS[(GRADIENTS.findIndex(g => g.id === template.gradientId) + 1) % GRADIENTS.length]`
(`findIndex` yields -1 when absent). -/
def nextGradient (registry : List Gradient) (gid : String) : Gradient :=
  let idx : ℤ :=
    match registry.findIdx? (fun g => g.id == gid) with
    | some i => (i : ℤ)
    | none => -1
  registry.getD ((idx + 1) % (registry.length : ℤ)).toNat emptyGradient

/-- The `addScene` handler from the source: refuse at `MAX_SCENES`
scenes, otherwise append a templated scene whose duration is the
template's clamped into bounds; `newId` stands for the fresh
`nanoid()`. -/
def addScene (registry : List Gradient) (newId : String)
    (scenes : List Scene) : List Scene :=
  if MAX_SCENES ≤ scenes.length then scenes
  else
    let template := scenes.getLast?.getD (buildInitialScenes.get ⟨0, by decide⟩)
    let gradient := nextGradient registry template.gradientId
    scenes ++
      [{ id := newId
         title := "New Narrative Moment"
         description := "Swap in your copy and colors, then keep sculpting the flow."
         duration := clamp template.duration MIN_DURATION MAX_DURATION
         gradientId := gradient.id
         textColor := template.textColor
         accent := template.accent
         animation := template.animation }]

/-- The `removeScene` handler from the source, restricted to its effect
on the scene list: removal of the last remaining scene is refused,
otherwise scenes with the given id are filtered out. -/
def removeScene (id : String) (scenes : List Scene) : List Scene :=
  if scenes.length = 1 then scenes
  else scenes.filter (fun scene => scene.id ≠ id)

/-- A duration edit through the `SceneEditor`: the number input's
`onChange` replaces the scene record with a copy whose duration is the
entered value clamped into `[MIN_DURATION, MAX_DURATION]` (composed with
the `updateScene` map-by-id). -/
def editSceneDuration (scenes : List Scene) (id : String) (value : ℚ) :
    List Scene :=
  scenes.map (fun scene =>
    if scene.id = id then
      { scene with duration := clamp value MIN_DURATION MAX_DURATION }
    else scene)

/-- Sample gradient registry for concrete evaluation.  Modelled from the
spec: the registry contents live in `lib/palette` (not under `src/`);
only the three ids referenced by the initial scenes matter here. -/
def sampleRegistry : List Gradient :=
  [{ id := "aurora", label := "Aurora", angle := 120,
     stops := [(0, "#0ea5e9"), (1, "#a855f7")] },
   { id := "midnight", label := "Midnight", angle := 200,
     stops := [(0, "#0f172a"), (1, "#1e3a8a")] },
   { id := "sunset", label := "Sunset", angle := 40,
     stops := [(0, "#f97316"), (1, "#db2777")] }]

/-- Sample ambient primitives for concrete evaluation: any fixed values
work because the theorems quantify over `MathPrims`. -/
def samplePrims : MathPrims :=
  { sin := fun _ => 0, cos := fun _ => 1, pi := 314159 / 100000,
    measureText := fun _ _ => 100 }

/-- Sample ambient world for concrete evaluation. -/
def sampleWorld : World := { callCount := 0, now := 0 }

/-- A second, different sample world, for determinism witnesses. -/
def sampleWorld2 : World := { callCount := 41, now := 987654 / 1000 }

/-- Encoder behaviour where every operation succeeds. -/
def behaviorAllOk : EncoderBehavior :=
  { loadOk := true, writeOk := fun _ => true, execOk := true,
    readOk := true, deleteOk := fun _ => true }

/-- Encoder behaviour whose second `writeFile` call (frame index 1)
fails, everything else succeeding. -/
def behaviorWriteFailAt1 : EncoderBehavior :=
  { loadOk := true, writeOk := fun i => i == 0, execOk := true,
    readOk := true, deleteOk := fun _ => true }

/-- Encoder behaviour whose `exec` step fails, everything else
succeeding. -/
def behaviorExecFails : EncoderBehavior :=
  { loadOk := true, writeOk := fun _ => true, execOk := false,
    readOk := true, deleteOk := fun _ => true }

/-- A concrete demonstration scene used by several witnesses. -/
def demoScene : Scene :=
  { id := "s1", title := "Demo", description := "Demo scene", duration := 2,
    gradientId := "aurora", textColor := "#ffffff", accent := "#facc15",
    animation := SceneAnimation.zoom }

/-- A scene whose duration 2.0125 s lies within bounds but is not an
exact multiple of a frame period. -/
def fracScene : Scene := { demoScene with id := "f1", duration := 161 / 80 }

/-- A scene whose gradient id resolves against no registry entry. -/
def danglingScene : Scene :=
  { demoScene with id := "sX", gradientId := "nope" }

/-- All scene durations lie within `[MIN_DURATION, MAX_DURATION]`. -/
def durationsInBounds (scenes : List Scene) : Prop :=
  ∀ scene ∈ scenes, MIN_DURATION ≤ scene.duration ∧ scene.duration ≤ MAX_DURATION

/-- The scene count lies within `[1, MAX_SCENES]`. -/
def sceneCountOk (scenes : List Scene) : Prop :=
  1 ≤ scenes.length ∧ scenes.length ≤ MAX_SCENES

/-- The start offset of the i-th scene: the sum of the durations of the
scenes before it (the accumulated `elapsed` of the walk). -/
def sceneStart (scenes : List Scene) (i : ℕ) : ℚ :=
  ((scenes.take i).map Scene.duration).sum

lemma renderSceneFrame_ok (prims : MathPrims) (registry : List Gradient)
    (scene : Scene) (progress : ℚ) (w : World)
    (hres : (registry.find? (fun entry => entry.id == scene.gradientId)).isSome = true) :
    ∃ ops : List DrawOp,
      renderSceneFrame prims registry scene progress w = Except.ok ops := by
  obtain ⟨g, hg⟩ := Option.isSome_iff_exists.mp hres
  exact ⟨_, by unfold renderSceneFrame; rw [hg]⟩

lemma runFrames_allOk (prims : MathPrims) (registry : List Gradient)
    (beh : EncoderBehavior) (w : World) (scene : Scene) (fFS T : ℕ)
    (hw : ∀ i, beh.writeOk i = true)
    (hg : (registry.find? (fun entry => entry.id == scene.gradientId)).isSome = true) :
    ∀ (r frame : ℕ) (st : SynthState),
      runFrames prims registry beh w scene fFS T r frame st =
        ({ storage := (List.range' st.frameIndex r).foldl
              (fun stor i => storagePut (frameName i) stor) st.storage
           written := st.written ++ (List.range' st.frameIndex r).map frameName
           stages := st.stages ++ (List.range' st.frameIndex r).map
              (fun k => (Stage.frames, ((k + 1 : ℕ) : ℚ) / (T : ℚ)))
           frameIndex := st.frameIndex + r
           loaded := st.loaded }, none) := by
  intro r
  induction r with
  | zero => intro frame st; simp [runFrames]
  | succ n ih =>
      intro frame st
      obtain ⟨g, hgf⟩ := Option.isSome_iff_exists.mp hg
      simp only [runFrames, renderSceneFrame, hgf, hw st.frameIndex, if_true, ih]
      refine Prod.ext ?_ rfl
      simp only [List.range'_succ, List.map_cons, List.foldl_cons,
        List.cons_append, List.append_assoc, List.singleton_append,
        SynthState.mk.injEq]
      refine ⟨?_, ?_, ?_, ?_, ?_⟩ <;> first | rfl | omega | trivial

lemma runScenes_allOk (prims : MathPrims) (registry : List Gradient)
    (beh : EncoderBehavior) (w : World) (T : ℕ)
    (hw : ∀ i, beh.writeOk i = true) :
    ∀ (scenes : List Scene)
      (hg : ∀ s ∈ scenes,
        (registry.find? (fun entry => entry.id == s.gradientId)).isSome = true)
      (st : SynthState),
      runScenes prims registry beh w T scenes st =
        ({ storage := (List.range' st.frameIndex (sumFrames scenes)).foldl
              (fun stor i => storagePut (frameName i) stor) st.storage
           written := st.written ++
              (List.range' st.frameIndex (sumFrames scenes)).map frameName
           stages := st.stages ++ (List.range' st.frameIndex (sumFrames scenes)).map
              (fun k => (Stage.frames, ((k + 1 : ℕ) : ℚ) / (T : ℚ)))
           frameIndex := st.frameIndex + sumFrames scenes
           loaded := st.loaded }, none) := by
  intro scenes
  induction scenes with
  | nil => intro hg st; simp [runScenes, sumFrames]
  | cons scene rest ih =>
      intro hg st
      have hgs := hg scene (List.mem_cons_self scene rest)
      have hsum : sumFrames (scene :: rest) =
          sumFrames rest + framesForScene scene.duration := by
        simp [sumFrames, Nat.add_comm]
      simp only [runScenes,
        runFrames_allOk prims registry beh w scene (framesForScene scene.duration)
          T hw hgs,
        ih (fun s hs => hg s (List.mem_cons_of_mem scene hs))]
      refine Prod.ext ?_ rfl
      have hsplit : List.range' st.frameIndex (sumFrames (scene :: rest)) =
          List.range' st.frameIndex (framesForScene scene.duration) ++
            List.range' (st.frameIndex + framesForScene scene.duration)
              (sumFrames rest) := by
        rw [hsum]
        exact (List.range'_append_1 st.frameIndex (framesForScene scene.duration)
          (sumFrames rest)).symm
      simp only [hsplit, List.map_append, List.foldl_append, List.append_assoc,
        SynthState.mk.injEq]
      refine ⟨trivial, trivial, trivial, by rw [hsum]; omega, trivial⟩

lemma framesStageReports_append (a b : List (Stage × ℚ)) :
    framesStageReports (a ++ b) =
      framesStageReports a ++ framesStageReports b := by
  simp [framesStageReports, List.filter_append]

lemma framesStageReports_loading (q : ℚ) :
    framesStageReports [(Stage.loading, q)] = [] := by
  simp [framesStageReports]

lemma framesStageReports_muxing (q : ℚ) :
    framesStageReports [(Stage.muxing, q)] = [] := by
  simp [framesStageReports]

lemma framesStageReports_cons_loading (q : ℚ) (rest : List (Stage × ℚ)) :
    framesStageReports ((Stage.loading, q) :: rest) = framesStageReports rest := by
  simp [framesStageReports, List.filter_cons]

lemma framesStageReports_cons_muxing (q : ℚ) (rest : List (Stage × ℚ)) :
    framesStageReports ((Stage.muxing, q) :: rest) = framesStageReports rest := by
  simp [framesStageReports, List.filter_cons]

lemma framesStageReports_nil : framesStageReports [] = [] := rfl

lemma framesStageReports_map_frames (g : ℕ → ℚ) (l : List ℕ) :
    framesStageReports (l.map (fun k => (Stage.frames, g k))) = l.map g := by
  induction l with
  | nil => simp [framesStageReports]
  | cons k l ih => simp [framesStageReports, List.filter_cons] at ih ⊢; exact ih

lemma mem_foldl_storagePut (f : ℕ → String) :
    ∀ (L : List ℕ) (S : List String) (n : String),
      n ∈ L.foldl (fun stor i => storagePut (f i) stor) S →
        n ∈ S ∨ n ∈ L.map f := by
  intro L
  induction L with
  | nil => intro S n h; exact Or.inl h
  | cons i L ih =>
      intro S n h
      simp only [List.foldl_cons] at h
      rcases ih (storagePut (f i) S) n h with hS | hL
      · unfold storagePut at hS
        by_cases hc : S.contains (f i)
        · rw [if_pos hc] at hS
          exact Or.inl hS
        · rw [if_neg hc] at hS
          rcases List.mem_append.mp hS with h1 | h2
          · exact Or.inl h1
          · exact Or.inr (by simp [List.mem_singleton.mp h2])
      · exact Or.inr (List.mem_cons_of_mem _ hL)

lemma foldl_deleteName_all (beh : EncoderBehavior)
    (hdel : ∀ n, beh.deleteOk n = true) :
    ∀ (L S : List String),
      L.foldl (fun stor f => deleteName beh f stor) S =
        S.filter (fun m => decide (m ∉ L)) := by
  intro L
  induction L with
  | nil => intro S; simp
  | cons f L ih =>
      intro S
      rw [List.foldl_cons,
        show deleteName beh f S = S.filter (fun m => decide (m ≠ f)) from by
          unfold deleteName; rw [if_pos (hdel f)],
        ih, List.filter_filter]
      refine List.filter_congr ?_
      intro a _
      simp only [List.mem_cons, not_or, decide_not]
      cases h1 : decide (a = f) <;> cases h2 : decide (a ∈ L) <;>
        simp_all

lemma cleanup_clears (beh : EncoderBehavior) (st : SynthState)
    (hdel : ∀ n, beh.deleteOk n = true)
    (hsub : ∀ n ∈ st.storage, n ∈ st.written ∨ n = "output.mp4") :
    (cleanupFfmpeg beh st).storage = [] := by
  show deleteName beh "output.mp4"
      (st.written.foldl (fun stor f => deleteName beh f stor) st.storage) = []
  rw [foldl_deleteName_all beh hdel]
  unfold deleteName
  rw [if_pos (hdel "output.mp4"), List.filter_filter]
  refine List.filter_eq_nil_iff.mpr ?_
  intro a ha
  rcases hsub a ha with hmem | hout
  · simp [hmem]
  · simp [hout]

lemma cleanupFfmpeg_written (beh : EncoderBehavior) (st : SynthState) :
    (cleanupFfmpeg beh st).written = st.written := rfl

lemma cleanupFfmpeg_stages (beh : EncoderBehavior) (st : SynthState) :
    (cleanupFfmpeg beh st).stages = st.stages := rfl

lemma mem_storagePut (name : String) (S : List String) (n : String)
    (h : n ∈ storagePut name S) : n ∈ S ∨ n = name := by
  unfold storagePut at h
  by_cases hc : S.contains name
  · rw [if_pos hc] at h
    exact Or.inl h
  · rw [if_neg hc] at h
    rcases List.mem_append.mp h with h1 | h2
    · exact Or.inl h1
    · exact Or.inr (List.mem_singleton.mp h2)

lemma synthesizeVideo_allOk (prims : MathPrims) (registry : List Gradient)
    (beh : EncoderBehavior) (w : World) (scenes : List Scene)
    (hne : scenes ≠ []) (hload : beh.loadOk = true)
    (hw : ∀ i, beh.writeOk i = true)
    (hg : ∀ s ∈ scenes,
      (registry.find? (fun entry => entry.id == s.gradientId)).isSome = true) :
    (synthesizeVideo prims registry beh w scenes).1.written =
      (List.range (sumFrames scenes)).map frameName ∧
    framesStageReports (synthesizeVideo prims registry beh w scenes).1.stages =
      (List.range (sumFrames scenes)).map
        (fun k => ((k + 1 : ℕ) : ℚ) / (totalFramesFor scenes : ℚ)) ∧
    ((∀ n, beh.deleteOk n = true) →
      (synthesizeVideo prims registry beh w scenes).1.storage = []) ∧
    (beh.execOk = false →
      (synthesizeVideo prims registry beh w scenes).2 =
        Except.error "ffmpeg exec failed") := by
  have hE : scenes.isEmpty = false := List.isEmpty_eq_false.mpr hne
  have hrun := runScenes_allOk prims registry beh w (totalFramesFor scenes) hw
    scenes hg
  unfold synthesizeVideo
  rw [hE]
  simp only [Bool.false_eq_true, if_false, hload, if_true, hrun]
  set N := sumFrames scenes with hN
  set T := totalFramesFor scenes with hT
  set S2 : List String := (List.range' 0 N).foldl
    (fun stor i => storagePut (frameName i) stor) [] with hS2
  have hwr : ∀ n ∈ S2, n ∈ (List.range' 0 N).map frameName := by
    intro n hn
    rcases mem_foldl_storagePut frameName (List.range' 0 N) [] n hn with h0 | h1
    · exact absurd h0 (List.not_mem_nil n)
    · exact h1
  have hrange : List.range N = List.range' 0 N := List.range_eq_range' N
  cases hexec : beh.execOk with
  | false =>
      simp only [Bool.false_eq_true, if_false]
      refine ⟨?_, ?_, ?_, fun _ => trivial⟩
      · simp [cleanupFfmpeg_written, hrange, initialSynthState]
      · simp only [cleanupFfmpeg_stages]
        simp [framesStageReports_append, framesStageReports_loading,
          framesStageReports_muxing, framesStageReports_cons_loading,
          framesStageReports_cons_muxing, framesStageReports_nil,
          framesStageReports_map_frames, hrange, initialSynthState]
      · intro hdel
        refine cleanup_clears beh _ hdel ?_
        intro n hn
        exact Or.inl (hwr n hn)
  | true =>
      simp only [if_true]
      cases hread : beh.readOk with
      | false =>
          simp only [Bool.false_eq_true, if_false]
          refine ⟨?_, ?_, ?_, by intro hcontra; simp at hcontra⟩
          · simp [cleanupFfmpeg_written, hrange, initialSynthState]
          · simp only [cleanupFfmpeg_stages]
            simp [framesStageReports_append, framesStageReports_loading,
              framesStageReports_muxing, framesStageReports_cons_loading,
              framesStageReports_cons_muxing, framesStageReports_nil,
              framesStageReports_map_frames, hrange, initialSynthState]
          · intro hdel
            refine cleanup_clears beh _ hdel ?_
            intro n hn
            rcases mem_storagePut "output.mp4" S2 n hn with h1 | h2
            · exact Or.inl (hwr n h1)
            · exact Or.inr h2
      | true =>
          simp only [if_true]
          refine ⟨?_, ?_, ?_, by intro hcontra; simp at hcontra⟩
          · simp [cleanupFfmpeg_written, hrange, initialSynthState]
          · simp only [cleanupFfmpeg_stages]
            simp [framesStageReports_append, framesStageReports_loading,
              framesStageReports_muxing, framesStageReports_cons_loading,
              framesStageReports_cons_muxing, framesStageReports_nil,
              framesStageReports_map_frames, hrange, initialSynthState]
          · intro hdel
            refine cleanup_clears beh _ hdel ?_
            intro n hn
            rcases mem_storagePut "output.mp4" S2 n hn with h1 | h2
            · exact Or.inl (hwr n h1)
            · exact Or.inr h2

lemma jsRound_natCast (n : ℕ) : jsRound ((n : ℚ)) = (n : ℤ) := by
  unfold jsRound
  rw [show ((n : ℚ) + 1 / 2) = ((n : ℤ) : ℚ) + 1 / 2 by push_cast; ring,
    Int.floor_int_add]
  norm_num

lemma one_le_framesForScene (d : ℚ) : 1 ≤ framesForScene d := by
  unfold framesForScene
  have h1 : (1 : ℤ) ≤ max 1 (jsRound (d * FPS)) := le_max_left _ _
  omega

lemma framesForScene_of_grid (d : ℚ) (k : ℕ)
    (hk : d * FPS = (k : ℚ)) (h2 : MIN_DURATION ≤ d) :
    framesForScene d = k := by
  have hk48 : (48 : ℚ) ≤ (k : ℚ) := by
    rw [← hk]
    calc (48 : ℚ) = 2 * 24 := by norm_num
    _ ≤ d * FPS := by
        unfold FPS
        have : (2 : ℚ) ≤ d := h2
        nlinarith
  have hk48' : (48 : ℕ) ≤ k := by exact_mod_cast hk48
  unfold framesForScene
  rw [hk, jsRound_natCast]
  have hmax : max (1 : ℤ) (k : ℤ) = (k : ℤ) := by omega
  rw [hmax]
  omega

lemma totalDurationForScenes_eq (scenes : List Scene) :
    totalDurationForScenes scenes = (scenes.map Scene.duration).sum := by
  suffices h : ∀ a : ℚ, scenes.foldl (fun total scene => total + scene.duration) a =
      a + (scenes.map Scene.duration).sum by
    simpa [totalDurationForScenes] using h 0
  induction scenes with
  | nil => intro a; simp
  | cons s rest ih => intro a; simp [List.foldl_cons, ih]; ring

lemma totalDuration_grid (scenes : List Scene)
    (hgrid : ∀ s ∈ scenes, ∃ k : ℕ, s.duration * FPS = (k : ℚ))
    (hb : ∀ s ∈ scenes, MIN_DURATION ≤ s.duration) :
    totalDurationForScenes scenes * FPS = ((sumFrames scenes : ℕ) : ℚ) := by
  induction scenes with
  | nil => simp [totalDurationForScenes_eq, sumFrames]
  | cons s rest ih =>
      obtain ⟨k, hk⟩ := hgrid s (List.mem_cons_self s rest)
      have hfs := framesForScene_of_grid s.duration k hk
        (hb s (List.mem_cons_self s rest))
      have ihr := ih (fun x hx => hgrid x (List.mem_cons_of_mem s hx))
        (fun x hx => hb x (List.mem_cons_of_mem s hx))
      have hcons : totalDurationForScenes (s :: rest) =
          s.duration + totalDurationForScenes rest := by
        simp [totalDurationForScenes_eq]
      have hsum : sumFrames (s :: rest) = k + sumFrames rest := by
        simp [sumFrames, hfs]
      rw [hcons, hsum, add_mul, hk, ihr]
      push_cast
      ring

lemma totalFrames_eq_sumFrames (scenes : List Scene) (hne : scenes ≠ [])
    (hgrid : ∀ s ∈ scenes, ∃ k : ℕ, s.duration * FPS = (k : ℚ))
    (hb : ∀ s ∈ scenes, MIN_DURATION ≤ s.duration) :
    totalFramesFor scenes = sumFrames scenes := by
  have htot := totalDuration_grid scenes hgrid hb
  unfold totalFramesFor
  rw [htot, jsRound_natCast]
  have hpos : 1 ≤ sumFrames scenes := by
    match scenes, hne with
    | s :: rest, _ =>
        have := one_le_framesForScene s.duration
        simp only [sumFrames, List.map_cons, List.sum_cons]
        omega
  omega

lemma chain_le_map_range' (f : ℕ → ℚ) (hf : ∀ k, f k ≤ f (k + 1)) :
    ∀ (n s : ℕ), List.Chain' (· ≤ ·) ((List.range' s n).map f) := by
  intro n
  induction n with
  | zero => intro s; simp
  | succ m ih =>
      intro s
      rw [List.range'_succ, List.map_cons]
      refine List.chain'_cons'.mpr ⟨?_, ih (s + 1)⟩
      intro y hy
      match m, hy with
      | m + 1, hy =>
          rw [List.range'_succ, List.map_cons, List.head?_cons] at hy
          rcases Option.some_inj.mp hy with rfl
          exact hf s

lemma one_le_totalFramesFor (scenes : List Scene) : 1 ≤ totalFramesFor scenes := by
  unfold totalFramesFor
  have h1 : (1 : ℤ) ≤ max 1 (jsRound (totalDurationForScenes scenes * FPS)) :=
    le_max_left _ _
  omega

lemma one_le_sumFrames (scenes : List Scene) (hne : scenes ≠ []) :
    1 ≤ sumFrames scenes := by
  match scenes, hne with
  | s :: rest, _ =>
      have := one_le_framesForScene s.duration
      simp only [sumFrames, List.map_cons, List.sum_cons]
      omega

lemma buildInitialScenes_bounds :
    ∀ s ∈ buildInitialScenes,
      MIN_DURATION ≤ s.duration ∧ s.duration ≤ MAX_DURATION := by
  intro s hs
  simp only [buildInitialScenes, List.mem_cons, List.mem_singleton,
    List.not_mem_nil, or_false] at hs
  rcases hs with rfl | rfl | rfl <;>
    exact ⟨by norm_num [MIN_DURATION], by norm_num [MAX_DURATION]⟩

lemma buildInitialScenes_grid :
    ∀ s ∈ buildInitialScenes, ∃ k : ℕ, s.duration * FPS = (k : ℚ) := by
  intro s hs
  simp only [buildInitialScenes, List.mem_cons, List.mem_singleton,
    List.not_mem_nil, or_false] at hs
  rcases hs with rfl | rfl | rfl
  · exact ⟨96, by norm_num [FPS]⟩
  · exact ⟨84, by norm_num [FPS]⟩
  · exact ⟨72, by norm_num [FPS]⟩

lemma sceneStart_zero (scenes : List Scene) : sceneStart scenes 0 = 0 := by
  simp [sceneStart]

lemma sceneStart_cons_succ (s : Scene) (rest : List Scene) (i : ℕ) :
    sceneStart (s :: rest) (i + 1) = s.duration + sceneStart rest i := by
  simp [sceneStart]

lemma sceneStart_nonneg (scenes : List Scene)
    (hnn : ∀ s ∈ scenes, 0 ≤ s.duration) (i : ℕ) :
    0 ≤ sceneStart scenes i := by
  refine List.sum_nonneg ?_
  intro x hx
  rcases List.mem_map.mp hx with ⟨y, hy, rfl⟩
  exact hnn y (List.mem_of_mem_take hy)

lemma sum_duration_nonneg (scenes : List Scene)
    (hnn : ∀ s ∈ scenes, 0 ≤ s.duration) :
    0 ≤ (scenes.map Scene.duration).sum := by
  refine List.sum_nonneg ?_
  intro x hx
  rcases List.mem_map.mp hx with ⟨y, hy, rfl⟩
  exact hnn y hy

lemma totalDuration_pos (scenes : List Scene) (hne : scenes ≠ [])
    (hpos : ∀ s ∈ scenes, 0 < s.duration) :
    0 < totalDurationForScenes scenes := by
  rw [totalDurationForScenes_eq]
  match scenes, hne with
  | s :: rest, _ =>
      have h1 : 0 < s.duration := hpos s (List.mem_cons_self s rest)
      have h2 : 0 ≤ (rest.map Scene.duration).sum :=
        sum_duration_nonneg rest
          (fun x hx => le_of_lt (hpos x (List.mem_cons_of_mem s hx)))
      simp only [List.map_cons, List.sum_cons]
      linarith

lemma resolveAux_none :
    ∀ (scenes : List Scene) (t e : ℚ),
      (∀ s ∈ scenes, 0 ≤ s.duration) →
      e + (scenes.map Scene.duration).sum ≤ t →
      resolveAux scenes t e = none := by
  intro scenes
  induction scenes with
  | nil => intro t e _ _; rfl
  | cons s rest ih =>
      intro t e hnn h
      have hsum : 0 ≤ (rest.map Scene.duration).sum :=
        sum_duration_nonneg rest
          (fun x hx => hnn x (List.mem_cons_of_mem s hx))
      simp only [List.map_cons, List.sum_cons] at h
      unfold resolveAux
      rw [if_neg (by intro hcon; linarith [hcon.2])]
      exact ih t (e + s.duration)
        (fun x hx => hnn x (List.mem_cons_of_mem s hx)) (by linarith)

lemma resolveAux_found :
    ∀ (scenes : List Scene) (t e : ℚ), e ≤ t →
      t < e + (scenes.map Scene.duration).sum →
      ∃ (i : ℕ) (hi : i < scenes.length),
        (e + sceneStart scenes i ≤ t ∧
          t < e + sceneStart scenes i + (scenes.get ⟨i, hi⟩).duration) ∧
        resolveAux scenes t e =
          some (scenes.get ⟨i, hi⟩,
            (t - (e + sceneStart scenes i)) / (scenes.get ⟨i, hi⟩).duration) := by
  intro scenes
  induction scenes with
  | nil =>
      intro t e h0 hlt
      simp only [List.map_nil, List.sum_nil, add_zero] at hlt
      linarith
  | cons s rest ih =>
      intro t e h0 hlt
      by_cases hc : t < e + s.duration
      · refine ⟨0, by simp, ⟨?_, ?_⟩, ?_⟩
        · rw [sceneStart_zero]
          linarith
        · rw [sceneStart_zero]
          simpa using hc
        · unfold resolveAux
          rw [if_pos ⟨h0, hc⟩, sceneStart_zero]
          simp
      · push_neg at hc
        simp only [List.map_cons, List.sum_cons] at hlt
        obtain ⟨i, hi, ⟨hc1, hc2⟩, heq⟩ := ih t (e + s.duration) hc
          (by linarith)
        refine ⟨i + 1, by simpa using Nat.succ_lt_succ hi, ⟨?_, ?_⟩, ?_⟩
        · rw [sceneStart_cons_succ]
          linarith
        · rw [sceneStart_cons_succ]
          simp only [List.get_cons_succ]
          have : e + (s.duration + sceneStart rest i) =
              e + s.duration + sceneStart rest i := by ring
          rw [this]
          exact hc2
        · unfold resolveAux
          rw [if_neg (by intro hcon; linarith [hcon.2])]
          rw [heq]
          congr 1
          rw [sceneStart_cons_succ]
          simp only [List.get_cons_succ]
          congr 1
          ring_nf

lemma interval_mono (scenes : List Scene)
    (hnn : ∀ s ∈ scenes, 0 ≤ s.duration) :
    ∀ (i j : ℕ) (hi : i < scenes.length) (hj : j < scenes.length), i < j →
      sceneStart scenes i + (scenes.get ⟨i, hi⟩).duration ≤
        sceneStart scenes j := by
  induction scenes with
  | nil => intro i j hi _ _; exact absurd hi (by simp)
  | cons s rest ih =>
      intro i j hi hj hij
      match i, j, hij with
      | 0, j + 1, _ =>
          have h0 : 0 ≤ sceneStart rest j :=
            sceneStart_nonneg rest
              (fun x hx => hnn x (List.mem_cons_of_mem s hx)) j
          rw [sceneStart_zero, sceneStart_cons_succ]
          have hg0 : ((s :: rest).get ⟨0, hi⟩) = s := rfl
          rw [hg0]
          linarith
      | i + 1, j + 1, hij =>
          have hrec := ih (fun x hx => hnn x (List.mem_cons_of_mem s hx))
            i j (by simpa using Nat.lt_of_succ_lt_succ hi)
            (by simpa using Nat.lt_of_succ_lt_succ hj)
            (Nat.lt_of_succ_lt_succ hij)
          rw [sceneStart_cons_succ, sceneStart_cons_succ]
          simp only [List.get_cons_succ]
          linarith

lemma interval_unique (scenes : List Scene)
    (hnn : ∀ s ∈ scenes, 0 ≤ s.duration) (t : ℚ) :
    ∀ (i j : ℕ) (hi : i < scenes.length) (hj : j < scenes.length),
      sceneStart scenes i ≤ t ∧
        t < sceneStart scenes i + (scenes.get ⟨i, hi⟩).duration →
      sceneStart scenes j ≤ t ∧
        t < sceneStart scenes j + (scenes.get ⟨j, hj⟩).duration →
      i = j := by
  intro i j hi hj hti htj
  by_contra hne
  rcases lt_or_gt_of_ne hne with hij | hij
  · have := interval_mono scenes hnn i j hi hj hij
    linarith [hti.2, htj.1]
  · have := interval_mono scenes hnn j i hj hi hij
    linarith [htj.2, hti.1]

lemma runFrames_writeFail_at_one (prims : MathPrims)
    (registry : List Gradient) (beh : EncoderBehavior) (w : World)
    (scene : Scene) (fFS T : ℕ)
    (hg : (registry.find? (fun entry => entry.id == scene.gradientId)).isSome = true)
    (hw0 : beh.writeOk 0 = true) (hw1 : beh.writeOk 1 = false)
    (r frame : ℕ) (st : SynthState) (hfi : st.frameIndex = 0) :
    runFrames prims registry beh w scene fFS T (r + 2) frame st =
      ({ st with
          storage := storagePut (frameName 0) st.storage
          written := st.written ++ [frameName 0]
          stages := st.stages ++ [(Stage.frames, ((1 : ℕ) : ℚ) / (T : ℚ))]
          frameIndex := 1 },
        some "ffmpeg writeFile failed") := by
  obtain ⟨g, hgf⟩ := Option.isSome_iff_exists.mp hg
  simp only [runFrames, renderSceneFrame, hgf, hfi, hw0, if_true, Nat.zero_add,
    hw1, Bool.false_eq_true, if_false, Nat.cast_one]

lemma clamp_duration_bounds (v : ℚ) :
    MIN_DURATION ≤ clamp v MIN_DURATION MAX_DURATION ∧
      clamp v MIN_DURATION MAX_DURATION ≤ MAX_DURATION := by
  unfold clamp
  constructor
  · exact le_min (le_max_right v MIN_DURATION)
      (by norm_num [MIN_DURATION, MAX_DURATION])
  · exact min_le_right _ _

/-- C1 (amended): during one export attempt over a non-empty scene list
with durations within bounds (encoder loading, every write, and every
gradient lookup succeeding), the reported frames-stage progress values
form a non-decreasing sequence; and whenever every scene duration is an
exact multiple of a frame period (duration·24 an integer — in particular
every duration on the editor's 0.5 s grid), the value after the last
frame is exactly 1. -/
theorem frames_progress_monotone_and_grid_complete
    (prims : MathPrims) (registry : List Gradient) (beh : EncoderBehavior)
    (w : World) (scenes : List Scene)
    (hne : scenes ≠ []) (hload : beh.loadOk = true)
    (hw : ∀ i, beh.writeOk i = true)
    (hg : ∀ s ∈ scenes,
      (registry.find? (fun entry => entry.id == s.gradientId)).isSome = true)
    (hb : ∀ s ∈ scenes, MIN_DURATION ≤ s.duration ∧ s.duration ≤ MAX_DURATION) :
    List.Chain' (· ≤ ·)
      (framesStageReports (synthesizeVideo prims registry beh w scenes).1.stages) ∧
    ((∀ s ∈ scenes, ∃ k : ℕ, s.duration * FPS = (k : ℚ)) →
      (framesStageReports
        (synthesizeVideo prims registry beh w scenes).1.stages).getLast? =
          some 1) := by
  obtain ⟨-, hrep, -, -⟩ :=
    synthesizeVideo_allOk prims registry beh w scenes hne hload hw hg
  rw [hrep]
  have hT1 : 1 ≤ totalFramesFor scenes := one_le_totalFramesFor scenes
  have hTpos : (0 : ℚ) < (totalFramesFor scenes : ℚ) := by
    exact_mod_cast Nat.lt_of_lt_of_le Nat.zero_lt_one hT1
  constructor
  · rw [List.range_eq_range']
    apply chain_le_map_range'
    intro k
    rw [div_le_div_iff_of_pos_right hTpos]
    exact_mod_cast Nat.le_succ (k + 1)
  · intro hgrid
    have hTN := totalFrames_eq_sumFrames scenes hne hgrid
      (fun s hs => (hb s hs).1)
    have hpos : 1 ≤ sumFrames scenes := one_le_sumFrames scenes hne
    have hNpos : (0 : ℚ) < (sumFrames scenes : ℚ) := by
      exact_mod_cast Nat.lt_of_lt_of_le Nat.zero_lt_one hpos
    rw [List.getLast?_map, List.getLast?_range, if_neg (by omega),
      Option.map_some']
    refine Option.some_inj.mpr ?_
    rw [Nat.sub_add_cancel hpos, hTN]
    exact div_self (ne_of_gt hNpos)

/-- Witness for C1's amended theorem at the initial scene list (grid
durations 4, 3.5, 3) under an all-succeeding encoder. -/
theorem frames_progress_monotone_and_grid_complete_witness :
    List.Chain' (· ≤ ·)
      (framesStageReports (synthesizeVideo samplePrims sampleRegistry
        behaviorAllOk sampleWorld buildInitialScenes).1.stages) ∧
    (framesStageReports (synthesizeVideo samplePrims sampleRegistry
      behaviorAllOk sampleWorld buildInitialScenes).1.stages).getLast? =
        some 1 := by
  have h := frames_progress_monotone_and_grid_complete samplePrims
    sampleRegistry behaviorAllOk sampleWorld buildInitialScenes
    (List.cons_ne_nil _ _) rfl (fun _ => rfl) (by decide)
    buildInitialScenes_bounds
  exact ⟨h.1, h.2 buildInitialScenes_grid⟩

/-- Counterexample to C1 as stated: with two scenes of duration 2.0125 s
(within `[MIN_DURATION, MAX_DURATION]`), per-scene rounding writes
48 + 48 = 96 frames while `totalFrames = round(4.025·24) = 97`, so the
frames-stage progress after the last frame is 96/97, not 1.0. -/
theorem frames_progress_reaches_one_counterexample :
    MIN_DURATION ≤ fracScene.duration ∧ fracScene.duration ≤ MAX_DURATION ∧
    (framesStageReports (synthesizeVideo samplePrims sampleRegistry
      behaviorAllOk sampleWorld [fracScene, fracScene]).1.stages).getLast? =
        some (96 / 97) ∧
    (96 / 97 : ℚ) ≠ 1 := by
  have h48 : framesForScene fracScene.duration = 48 := by
    norm_num [framesForScene, jsRound, FPS, fracScene, demoScene] <;> rfl
  have hN : sumFrames [fracScene, fracScene] = 96 := by
    simp [sumFrames, h48]
  have hT : totalFramesFor [fracScene, fracScene] = 97 := by
    have htot : totalDurationForScenes [fracScene, fracScene] = 161 / 40 := by
      norm_num [totalDurationForScenes_eq, fracScene, demoScene]
    unfold totalFramesFor
    rw [htot]
    norm_num [jsRound, FPS] <;> rfl
  refine ⟨by norm_num [fracScene, demoScene, MIN_DURATION],
    by norm_num [fracScene, demoScene, MAX_DURATION], ?_, by norm_num⟩
  obtain ⟨-, hrep, -, -⟩ := synthesizeVideo_allOk samplePrims sampleRegistry
    behaviorAllOk sampleWorld [fracScene, fracScene]
    (List.cons_ne_nil _ _) rfl (fun _ => rfl) (by decide)
  rw [hrep, hN, hT, List.getLast?_map, List.getLast?_range,
    if_neg (by omega), Option.map_some']
  norm_num

/-- C2: for a non-empty scene list with positive durations, the preview
timeline resolution maps each `t` in `[0, totalDuration)` to exactly the
one scene whose half-open interval `[start, start + duration)` contains
`t`, at local progress `(t − start) / duration`; every
`t ≥ totalDuration` resolves to the last scene at progress 1; and a
single scene of duration 2 resolves at `t = 0, 1, 2, 3` to progress
`0, 0.5, 1, 1` on that scene. -/
theorem timeline_resolution_correct (scenes : List Scene) (hne : scenes ≠ [])
    (hpos : ∀ s ∈ scenes, 0 < s.duration) :
    (∀ t : ℚ, 0 ≤ t → t < totalDurationForScenes scenes →
      ∃ (i : ℕ) (hi : i < scenes.length),
        (sceneStart scenes i ≤ t ∧
          t < sceneStart scenes i + (scenes.get ⟨i, hi⟩).duration) ∧
        (∀ (j : ℕ) (hj : j < scenes.length),
          sceneStart scenes j ≤ t ∧
            t < sceneStart scenes j + (scenes.get ⟨j, hj⟩).duration →
          j = i) ∧
        renderPreviewFrame scenes t =
          some (scenes.get ⟨i, hi⟩,
            (t - sceneStart scenes i) / (scenes.get ⟨i, hi⟩).duration)) ∧
    (∀ t : ℚ, totalDurationForScenes scenes ≤ t →
      renderPreviewFrame scenes t = some (scenes.getLast hne, 1)) ∧
    (∀ b : Scene, b.duration = 2 →
      renderPreviewFrame [b] 0 = some (b, 0) ∧
      renderPreviewFrame [b] 1 = some (b, 1 / 2) ∧
      renderPreviewFrame [b] 2 = some (b, 1) ∧
      renderPreviewFrame [b] 3 = some (b, 1)) := by
  have hnn : ∀ s ∈ scenes, 0 ≤ s.duration :=
    fun s hs => le_of_lt (hpos s hs)
  have htotpos := totalDuration_pos scenes hne hpos
  have htne : ¬ totalDurationForScenes scenes = 0 := ne_of_gt htotpos
  refine ⟨?_, ?_, ?_⟩
  · intro t ht0 htlt
    have hlt' : t < 0 + (scenes.map Scene.duration).sum := by
      rw [totalDurationForScenes_eq] at htlt
      linarith
    obtain ⟨i, hi, ⟨hc1, hc2⟩, heq⟩ := resolveAux_found scenes t 0 ht0 hlt'
    rw [zero_add] at hc1 hc2
    refine ⟨i, hi, ⟨hc1, hc2⟩, ?_, ?_⟩
    · intro j hj hcj
      exact interval_unique scenes hnn t j i hj hi hcj ⟨hc1, hc2⟩
    · unfold renderPreviewFrame
      rw [if_neg htne, heq, zero_add]
  · intro t htge
    have hnone : resolveAux scenes t 0 = none := by
      refine resolveAux_none scenes t 0 hnn ?_
      rw [totalDurationForScenes_eq] at htge
      linarith
    unfold renderPreviewFrame
    rw [if_neg htne, hnone, List.getLast?_eq_getLast scenes hne,
      Option.map_some']
  · intro b hb
    have htb : totalDurationForScenes [b] = 2 := by
      simp [totalDurationForScenes, hb]
    refine ⟨?_, ?_, ?_, ?_⟩ <;>
      · unfold renderPreviewFrame resolveAux
        rw [if_neg (by rw [htb]; norm_num)]
        norm_num [hb]
        try rfl

/-- Witness for C2 at a single concrete scene of duration 2. -/
theorem timeline_resolution_correct_witness :
    renderPreviewFrame [demoScene] 0 = some (demoScene, 0) ∧
    renderPreviewFrame [demoScene] 1 = some (demoScene, 1 / 2) ∧
    renderPreviewFrame [demoScene] 2 = some (demoScene, 1) ∧
    renderPreviewFrame [demoScene] 3 = some (demoScene, 1) :=
  (timeline_resolution_correct [demoScene] (List.cons_ne_nil _ _)
    (by
      intro s hs
      rcases List.mem_singleton.mp hs with rfl
      norm_num [demoScene])).2.2 demoScene rfl

/-- C3: the orchestrator renders exactly
`max(1, round(duration·24))` frames for a scene; concretely, durations
2 and 8 give 48 and 192 frames, and the scene list with durations
4, 3.5, 3 gives per-scene counts 96, 84, 72, total duration 10.5, and
252 frames in total. -/
theorem frame_count_law (prims : MathPrims) (registry : List Gradient)
    (beh : EncoderBehavior) (w : World) (scene : Scene)
    (hload : beh.loadOk = true) (hw : ∀ i, beh.writeOk i = true)
    (hg : (registry.find? (fun entry => entry.id == scene.gradientId)).isSome = true) :
    (synthesizeVideo prims registry beh w [scene]).1.written.length =
      (max 1 (jsRound (scene.duration * 24))).toNat ∧
    framesForScene 2 = 48 ∧
    framesForScene 8 = 192 ∧
    buildInitialScenes.map (fun s => framesForScene s.duration) =
      [96, 84, 72] ∧
    totalDurationForScenes buildInitialScenes = 21 / 2 ∧
    sumFrames buildInitialScenes = 252 := by
  have h4 : framesForScene 4 = 96 := by
    norm_num [framesForScene, jsRound, FPS] <;> rfl
  have h35 : framesForScene (7 / 2) = 84 := by
    norm_num [framesForScene, jsRound, FPS] <;> rfl
  have h3 : framesForScene 3 = 72 := by
    norm_num [framesForScene, jsRound, FPS] <;> rfl
  refine ⟨?_, by norm_num [framesForScene, jsRound, FPS] <;> rfl,
    by norm_num [framesForScene, jsRound, FPS] <;> rfl, ?_, ?_, ?_⟩
  · obtain ⟨hwrit, -, -, -⟩ := synthesizeVideo_allOk prims registry beh w
      [scene] (List.cons_ne_nil _ _) hload hw
      (by intro s hs; rcases List.mem_singleton.mp hs with rfl; exact hg)
    rw [hwrit, List.length_map, List.length_range]
    simp [sumFrames, framesForScene, FPS]
  · simp [buildInitialScenes, h4, h35, h3]
  · norm_num [totalDurationForScenes_eq, buildInitialScenes]
  · simp [sumFrames, buildInitialScenes, h4, h35, h3]

/-- Witness for C3 at the demonstration scene of duration 2 under an
all-succeeding encoder. -/
theorem frame_count_law_witness :
    (synthesizeVideo samplePrims sampleRegistry behaviorAllOk sampleWorld
      [demoScene]).1.written.length =
        (max 1 (jsRound (demoScene.duration * 24))).toNat ∧
    framesForScene 2 = 48 :=
  have h := frame_count_law samplePrims sampleRegistry behaviorAllOk
    sampleWorld demoScene rfl (fun _ => rfl) (by decide)
  ⟨h.1, h.2.1⟩

/-- C4: frame rendering is deterministic — for a fixed `(scene, progress)`
whose gradient resolves, two render calls under different ambient worlds
(call counts, wall clocks) issue the identical sequence of drawing
commands, and that sequence exists (the render succeeds); identical
command sequences replayed onto identically-sized fresh 1280×720
surfaces rasterize to identical pixels. -/
theorem render_deterministic (prims : MathPrims) (registry : List Gradient)
    (scene : Scene) (progress : ℚ) (w₁ w₂ : World)
    (hres : (registry.find? (fun entry => entry.id == scene.gradientId)).isSome = true) :
    renderSceneFrame prims registry scene progress w₁ =
      renderSceneFrame prims registry scene progress w₂ ∧
    ∃ ops : List DrawOp,
      renderSceneFrame prims registry scene progress w₁ = Except.ok ops ∧
      renderSceneFrame prims registry scene progress w₂ = Except.ok ops := by
  obtain ⟨ops, hops⟩ := renderSceneFrame_ok prims registry scene progress w₁ hres
  exact ⟨rfl, ops, hops, hops⟩

/-- Witness for C4 at a concrete scene and two different worlds. -/
theorem render_deterministic_witness :
    renderSceneFrame samplePrims sampleRegistry demoScene (1 / 3) sampleWorld =
      renderSceneFrame samplePrims sampleRegistry demoScene (1 / 3)
        sampleWorld2 :=
  (render_deterministic samplePrims sampleRegistry demoScene (1 / 3)
    sampleWorld sampleWorld2 (by decide)).1

/-- C5 (code bug): a `writeFile` failure during the frame loop — which
sits outside the `try`/`finally` in the source — aborts the attempt
WITHOUT running cleanup, so the first frame file written stays in the
encoder's working storage; by contrast an `exec` failure (inside the
`try`) does run cleanup and leaves the storage empty while still ending
in the terminal error outcome. -/
theorem cleanup_skipped_on_write_failure :
    (synthesizeVideo samplePrims sampleRegistry behaviorWriteFailAt1
        sampleWorld [demoScene]).2 =
      Except.error "ffmpeg writeFile failed" ∧
    (synthesizeVideo samplePrims sampleRegistry behaviorWriteFailAt1
        sampleWorld [demoScene]).1.storage = ["frame_00000.png"] ∧
    (synthesizeVideo samplePrims sampleRegistry behaviorExecFails sampleWorld
        [demoScene]).2 = Except.error "ffmpeg exec failed" ∧
    (synthesizeVideo samplePrims sampleRegistry behaviorExecFails sampleWorld
        [demoScene]).1.storage = [] := by
  have h48 : framesForScene demoScene.duration = 48 := by
    norm_num [framesForScene, jsRound, FPS, demoScene] <;> rfl
  have hr48 : (48 : ℕ) = 46 + 2 := rfl
  have hrunS : ∀ (stor wr : List String) (sg : List (Stage × ℚ))
      (ld : Bool),
      runScenes samplePrims sampleRegistry behaviorWriteFailAt1 sampleWorld
          (totalFramesFor [demoScene]) [demoScene] ⟨stor, wr, sg, 0, ld⟩ =
        (⟨storagePut (frameName 0) stor, wr ++ [frameName 0],
          sg ++ [(Stage.frames, ((1 : ℕ) : ℚ) /
            ((totalFramesFor [demoScene] : ℕ) : ℚ))], 1, ld⟩,
          some "ffmpeg writeFile failed") := by
    intro stor wr sg ld
    simp only [runScenes, h48, hr48,
      runFrames_writeFail_at_one samplePrims sampleRegistry
        behaviorWriteFailAt1 sampleWorld demoScene (46 + 2)
        (totalFramesFor [demoScene]) (by decide) rfl rfl 46 0
        ⟨stor, wr, sg, 0, ld⟩ rfl]
  have hfailState : synthesizeVideo samplePrims sampleRegistry
      behaviorWriteFailAt1 sampleWorld [demoScene] =
      (⟨storagePut (frameName 0) [], [frameName 0],
        [(Stage.loading, 1 / 10), (Stage.loading, 1)] ++
          [(Stage.frames, ((1 : ℕ) : ℚ) /
            ((totalFramesFor [demoScene] : ℕ) : ℚ))], 1, true⟩,
        Except.error "ffmpeg writeFile failed") := by
    unfold synthesizeVideo
    rw [show [demoScene].isEmpty = false from rfl]
    simp only [Bool.false_eq_true, if_false]
    rw [if_pos (show behaviorWriteFailAt1.loadOk = true from rfl)]
    simp only [initialSynthState, hrunS, List.nil_append,
      List.singleton_append, List.cons_append]
  obtain ⟨-, -, hstore, hexec⟩ := synthesizeVideo_allOk samplePrims
    sampleRegistry behaviorExecFails sampleWorld [demoScene]
    (List.cons_ne_nil _ _) rfl (fun _ => rfl) (by decide)
  refine ⟨by rw [hfailState], ?_, hexec rfl, hstore (fun _ => rfl)⟩
  rw [hfailState]
  decide

/-- C6: when a scene's gradient id has no registry entry,
`renderSceneFrame` fails with the gradient-lookup error and issues no
drawing command (no `ok` trace exists, so no default gradient is
substituted and no pixel is committed). -/
theorem missing_gradient_aborts (prims : MathPrims) (registry : List Gradient)
    (scene : Scene) (progress : ℚ) (w : World)
    (habs : registry.find? (fun entry => entry.id == scene.gradientId) = none) :
    renderSceneFrame prims registry scene progress w =
      Except.error ("Missing gradient \"" ++ scene.gradientId ++ "\".") ∧
    ∀ ops : List DrawOp,
      renderSceneFrame prims registry scene progress w ≠ Except.ok ops := by
  have hmain : renderSceneFrame prims registry scene progress w =
      Except.error ("Missing gradient \"" ++ scene.gradientId ++ "\".") := by
    unfold renderSceneFrame
    rw [habs]
  exact ⟨hmain, fun ops h => by rw [hmain] at h; exact Except.noConfusion h⟩

/-- Witness for C6 at a concrete dangling scene. -/
theorem missing_gradient_aborts_witness :
    renderSceneFrame samplePrims sampleRegistry danglingScene (1 / 2)
        sampleWorld =
      Except.error "Missing gradient \"nope\"." :=
  (missing_gradient_aborts samplePrims sampleRegistry danglingScene (1 / 2)
    sampleWorld (by decide)).1

/-- C7: the frame files handed to the encoder during an export attempt
(with loading, writes and gradient lookups succeeding) are exactly
`frame_` + zero-padded 5-digit global index + `.png` for indices
0, 1, 2, … in order — strictly increasing, gap-free, global across scene
boundaries — and their number is the sum over scenes of
`framesForScene`. -/
theorem frame_filenames_sequential (prims : MathPrims)
    (registry : List Gradient) (beh : EncoderBehavior) (w : World)
    (scenes : List Scene) (hne : scenes ≠ []) (hload : beh.loadOk = true)
    (hw : ∀ i, beh.writeOk i = true)
    (hg : ∀ s ∈ scenes,
      (registry.find? (fun entry => entry.id == s.gradientId)).isSome = true) :
    (synthesizeVideo prims registry beh w scenes).1.written =
      (List.range (sumFrames scenes)).map frameName ∧
    (synthesizeVideo prims registry beh w scenes).1.written.length =
      sumFrames scenes ∧
    frameName 0 = "frame_00000.png" ∧
    frameName 1 = "frame_00001.png" := by
  obtain ⟨hwrit, -, -, -⟩ :=
    synthesizeVideo_allOk prims registry beh w scenes hne hload hw hg
  exact ⟨hwrit, by rw [hwrit, List.length_map, List.length_range],
    by decide, by decide⟩

/-- Witness for C7 at the initial scene list under an all-succeeding
encoder. -/
theorem frame_filenames_sequential_witness :
    (synthesizeVideo samplePrims sampleRegistry behaviorAllOk sampleWorld
      buildInitialScenes).1.written =
        (List.range (sumFrames buildInitialScenes)).map frameName ∧
    (synthesizeVideo samplePrims sampleRegistry behaviorAllOk sampleWorld
      buildInitialScenes).1.written.length = sumFrames buildInitialScenes :=
  have h := frame_filenames_sequential samplePrims sampleRegistry
    behaviorAllOk sampleWorld buildInitialScenes (List.cons_ne_nil _ _) rfl
    (fun _ => rfl) (by decide)
  ⟨h.1, h.2.1⟩

/-- C8: `synthesizeVideo` on an empty scene list throws the validation
error before any work: the result is the untouched initial state — the
encoder is not loaded, no frame is written, no stage progress has been
reported. -/
theorem empty_scene_list_rejected (prims : MathPrims) (registry : List Gradient)
    (beh : EncoderBehavior) (w : World) :
    synthesizeVideo prims registry beh w [] =
      (initialSynthState, Except.error "Add at least one scene before rendering.") ∧
    (synthesizeVideo prims registry beh w []).1.loaded = false ∧
    (synthesizeVideo prims registry beh w []).1.written = [] ∧
    (synthesizeVideo prims registry beh w []).1.stages = [] :=
  ⟨rfl, rfl, rfl, rfl⟩

/-- C9: scene durations stay within `[MIN_DURATION, MAX_DURATION]` under
every scene-list operation — the initial scenes satisfy the bounds;
`addScene` clamps the templated duration; `removeScene` keeps a subset;
every duration edit through the scene editor clamps the entered value. -/
theorem durations_within_bounds :
    durationsInBounds buildInitialScenes ∧
    (∀ (registry : List Gradient) (newId : String) (scenes : List Scene),
      durationsInBounds scenes →
        durationsInBounds (addScene registry newId scenes)) ∧
    (∀ (id : String) (scenes : List Scene),
      durationsInBounds scenes → durationsInBounds (removeScene id scenes)) ∧
    (∀ (scenes : List Scene) (id : String) (value : ℚ),
      durationsInBounds scenes →
        durationsInBounds (editSceneDuration scenes id value)) := by
  refine ⟨buildInitialScenes_bounds, ?_, ?_, ?_⟩
  · intro registry newId scenes h scene hmem
    unfold addScene at hmem
    by_cases hlen : MAX_SCENES ≤ scenes.length
    · rw [if_pos hlen] at hmem
      exact h scene hmem
    · rw [if_neg hlen] at hmem
      rcases List.mem_append.mp hmem with hold | hnew
      · exact h scene hold
      · rcases List.mem_singleton.mp hnew with rfl
        exact clamp_duration_bounds _
  · intro id scenes h scene hmem
    unfold removeScene at hmem
    by_cases hlen : scenes.length = 1
    · rw [if_pos hlen] at hmem
      exact h scene hmem
    · rw [if_neg hlen] at hmem
      exact h scene (List.mem_of_mem_filter hmem)
  · intro scenes id value h scene hmem
    unfold editSceneDuration at hmem
    rcases List.mem_map.mp hmem with ⟨orig, horig, heq⟩
    by_cases hid : orig.id = id
    · rw [if_pos hid] at heq
      rcases heq with rfl
      exact clamp_duration_bounds _
    · rw [if_neg hid] at heq
      rcases heq with rfl
      exact h orig horig

/-- Witness for C9: an add followed by a duration edit with an
out-of-range entry keeps every duration within bounds. -/
theorem durations_within_bounds_witness :
    durationsInBounds
      (editSceneDuration (addScene sampleRegistry "scene-new" buildInitialScenes)
        "scene-a" 100) :=
  durations_within_bounds.2.2.2 _ _ _
    (durations_within_bounds.2.1 sampleRegistry "scene-new" buildInitialScenes
      durations_within_bounds.1)

/-- C10: every scene-list operation preserves `1 ≤ count ≤ MAX_SCENES`
(removal relying on the nanoid uniqueness of scene ids); `removeScene`
on a single-scene list and `addScene` on a full list are no-ops. -/
theorem scene_count_bounds :
    sceneCountOk buildInitialScenes ∧
    (∀ (registry : List Gradient) (newId : String) (scenes : List Scene),
      sceneCountOk scenes → sceneCountOk (addScene registry newId scenes)) ∧
    (∀ (id : String) (scenes : List Scene),
      (scenes.map Scene.id).Nodup → sceneCountOk scenes →
        sceneCountOk (removeScene id scenes)) ∧
    (∀ (id : String) (scenes : List Scene),
      scenes.length = 1 → removeScene id scenes = scenes) ∧
    (∀ (registry : List Gradient) (newId : String) (scenes : List Scene),
      scenes.length = MAX_SCENES → addScene registry newId scenes = scenes) := by
  refine ⟨⟨by norm_num [buildInitialScenes], by norm_num [buildInitialScenes, MAX_SCENES]⟩,
    ?_, ?_, ?_, ?_⟩
  · intro registry newId scenes h
    unfold addScene
    by_cases hlen : MAX_SCENES ≤ scenes.length
    · rw [if_pos hlen]
      exact h
    · rw [if_neg hlen]
      refine ⟨?_, ?_⟩ <;> simp only [List.length_append, List.length_singleton]
      · omega
      · unfold MAX_SCENES at hlen ⊢
        omega
  · intro id scenes hnodup h
    unfold removeScene
    by_cases hlen : scenes.length = 1
    · rw [if_pos hlen]
      exact h
    · rw [if_neg hlen]
      refine ⟨?_, le_trans (List.length_filter_le _ _) h.2⟩
      match scenes, hnodup, h with
      | a :: b :: rest, hnodup, h =>
        have hab : a.id ≠ b.id := by
          simp only [List.map_cons, List.nodup_cons, List.mem_cons] at hnodup
          exact fun hcontra => hnodup.1 (Or.inl hcontra)
        have hone : ∃ scene ∈ a :: b :: rest, scene.id ≠ id := by
          by_cases ha : a.id = id
          · exact ⟨b, List.mem_cons_of_mem a (List.mem_cons_self b rest),
              fun hb => hab (ha.trans hb.symm)⟩
          · exact ⟨a, List.mem_cons_self a (b :: rest), ha⟩
        obtain ⟨scene, hmem, hnid⟩ := hone
        have hin : scene ∈ (a :: b :: rest).filter (fun s => s.id ≠ id) :=
          List.mem_filter.mpr ⟨hmem, by simpa using hnid⟩
        exact List.length_pos.mpr (List.ne_nil_of_mem hin)
  · intro id scenes hlen
    unfold removeScene
    rw [if_pos hlen]
  · intro registry newId scenes hlen
    unfold addScene
    rw [if_pos (le_of_eq hlen.symm)]

/-- Witness for C10: adding to then removing from the initial scene list
keeps the count within bounds. -/
theorem scene_count_bounds_witness :
    sceneCountOk
      (removeScene "scene-a"
        (addScene sampleRegistry "scene-new" buildInitialScenes)) :=
  scene_count_bounds.2.2.1 "scene-a" _ (by decide)
    (scene_count_bounds.2.1 sampleRegistry "scene-new" buildInitialScenes
      scene_count_bounds.1)
